import Mathlib

/-!
Shallow embedding of the `vuepik` image-selector component
(`src/components/ImageSelector.vue`): the yup validation schema
(`imageValidationSchema`), the selection controller (`select`, `reset`),
the preview-URL derivation (`previewUrl`), and a small trace semantics for
sequences of controller actions.  Machine strings are modelled with Lean
`String` (JavaScript `toLowerCase` is modelled on the ASCII range, which
covers every extension the component compares against); file sizes are
byte counts in `Nat`; object URLs are modelled as freshly numbered ids in
an explicit allocation environment.
-/

namespace Vuepik

/-- The parts of a DOM `File` that the component reads: its name and its
size in bytes. -/
structure CFile where
  name : String
  size : Nat
deriving DecidableEq, Repr

/-- The component props read by the validator: `supportedFormats` and
`maxSize` (both optional).  `src` and `annotations` are presentation-only
and modelled where needed (`previewUrl`). -/
structure Props where
  supportedFormats : Option (List String)
  maxSize : Option Nat
deriving DecidableEq, Repr

/-- `const validImageFormats = ['jpg', 'jpeg', 'png', 'webp', 'gif']`. -/
def validImageFormats : List String := ["jpg", "jpeg", "png", "webp", "gif"]

/-- JavaScript `name.split('.')` for the one-character separator `'.'`:
splits a character list at every dot; on a dot-free list it returns the
singleton of the whole list, and it never returns an empty list. -/
def splitOnDot : List Char → List (List Char)
  | [] => [[]]
  | c :: cs =>
    if c = '.' then [] :: splitOnDot cs
    else
      match splitOnDot cs with
      | [] => [[c]]
      | h :: t => (c :: h) :: t

/-- `value.name.split('.').pop()?.toLowerCase()`: the part after the last
dot (the whole name when there is no dot), lowercased.  `pop` on the
result of `split` never yields `undefined` because `split` never returns
an empty array, so the result is always a string. -/
def fileExt (name : String) : String :=
  String.mk (((splitOnDot name.data).getLastD []).map Char.toLower)

/-- `props.supportedFormats || validImageFormats`: an explicitly supplied
list (even an empty one, which is truthy in JavaScript) wins; otherwise
the built-in list. -/
def effFormats (p : Props) : List String :=
  p.supportedFormats.getD validImageFormats

/-- The default maximum size, `5 * 1024 * 1024` bytes. -/
def defaultMaxSize : Nat := 5 * 1024 * 1024

/-- `props.maxSize || 5 * 1024 * 1024`: a supplied non-zero maximum wins;
`0` is falsy in JavaScript and falls back to the default. -/
def effMaxSize (p : Props) : Nat :=
  match p.maxSize with
  | some m => if m = 0 then defaultMaxSize else m
  | none => defaultMaxSize

/-- `validImageFormats.includes(fileExtension)`. -/
def isImageFormatB (ext : String) : Bool := validImageFormats.contains ext

/-- `fileExtension ? allowedFormats.includes(fileExtension) : true`: the
empty extension is falsy, so it passes this rule vacuously. -/
def isAllowedFormatB (p : Props) (ext : String) : Bool :=
  if ext.isEmpty then true else (effFormats p).contains ext

/-- `(value.size / 1024 / 1024).toFixed(2)`: the byte count divided by
2^20 (exact in double precision for realistic sizes), rounded to the
nearest hundredth with ties away from zero (the ECMAScript `toFixed`
rule picks the larger candidate), printed with exactly two decimals. -/
def toFixed2MiB (sz : Nat) : String :=
  let n := (100 * sz + 524288) / 1048576
  toString (n / 100) ++ "." ++
    (if n % 100 < 10 then "0" ++ toString (n % 100) else toString (n % 100))

/-- Drops trailing `'0'` characters of a digit string. -/
def stripTrailingZeros (s : String) : String :=
  String.mk ((s.data.reverse.dropWhile (fun c => c = '0')).reverse)

/-- Zero-pads the decimal digits of `k` on the left to 20 characters. -/
def pad20 (k : Nat) : String :=
  String.mk (List.replicate (20 - (toString k).length) '0') ++ toString k

/-- JavaScript number-to-string of `maxFileSize / 1024 / 1024`: the value
is the dyadic rational `m / 2^20` (exact in double precision), rendered
as its exact finite decimal expansion with trailing zeros removed — an
integer prints with no decimal point (this matches the ECMAScript
shortest round-trip output on every value whose exact expansion is
shortest, in particular on every whole-MiB maximum). -/
def jsNumMiB (m : Nat) : String :=
  if m % 1048576 = 0 then toString (m / 1048576)
  else
    toString (m / 1048576) ++ "." ++
      stripTrailingZeros (pad20 ((m % 1048576) * 95367431640625))

/-- The rejection message of the intrinsic-format rule, citing the
built-in format list. -/
def builtinFormatMsg (ext : String) : String :=
  "Unsupported file format: ." ++ ext ++ ". Supported formats are: " ++
    String.intercalate ", " validImageFormats ++ "."

/-- The rejection message of the policy rule, citing the effective
allowed-format list. -/
def allowedFormatMsg (p : Props) (ext : String) : String :=
  "Unsupported file format: ." ++ ext ++ ". Allowed formats are: " ++
    String.intercalate ", " (effFormats p) ++ "."

/-- The rejection message of the size rule. -/
def sizeMsg (sz maxB : Nat) : String :=
  "File size is too large: " ++ toFixed2MiB sz ++
    "MB. Maximum allowed size is " ++ jsNumMiB maxB ++ "MB."

/-- `imageValidationSchema.validate({image: v})` with `abortEarly`
(yup's default): the `required` rule fires only on a missing value (the
custom tests pass vacuously there); on a present value the `fileFormat`
test runs first (intrinsic check, then policy check), then the
`fileSize` test; the first failing rule's message is the error. -/
def validate (p : Props) (v : Option CFile) : Except String Unit :=
  match v with
  | none => Except.error "Please select an image file"
  | some value =>
    let ext := fileExt value.name
    if !(isImageFormatB ext) then Except.error (builtinFormatMsg ext)
    else if !(isAllowedFormatB p ext) then Except.error (allowedFormatMsg p ext)
    else if value.size > effMaxSize p then
      Except.error (sizeMsg value.size (effMaxSize p))
    else Except.ok ()

/-- The reactive `state` object: `image`, `touched`, `error`. -/
structure SelState where
  image : Option CFile
  touched : Bool
  error : Option String
deriving DecidableEq, Repr

/-- The initial state `{image: null, touched: false, error: null}`. -/
def emptyState : SelState := ⟨none, false, none⟩

/-- The component's outbound events: `select`, `reset`, `error`. -/
inductive Emit where
  | select (f : CFile)
  | reset
  | error (msg : String)
deriving DecidableEq, Repr

/-- The two input sources handled by `select(event)`, each carrying its
file list (`input.files` for the picker, `dataTransfer.files` for a
drop), as a tagged variant resolved at the boundary. -/
inductive InputEvent where
  | picker (files : List CFile)
  | drop (files : List CFile)
deriving DecidableEq, Repr

/-- The file list carried by an input event. -/
def filesOf : InputEvent → List CFile
  | .picker l => l
  | .drop l => l

/-- `async function select(event)`: take the first file of the event's
file list (both branches read index 0 and bail out with no state change
and no event when there is none), validate it, and either commit the
selection (set `image`, `touched`, clear `error`, emit `select`) or
record the rejection (set `error` only, emit `error`). -/
def select (p : Props) (s : SelState) (e : InputEvent) : SelState × List Emit :=
  match (filesOf e).head? with
  | none => (s, [])
  | some f =>
    match validate p (some f) with
    | Except.ok _ => (⟨some f, true, none⟩, [Emit.select f])
    | Except.error msg => ({ s with error := some msg }, [Emit.error msg])

/-- The browser's object-URL store: a fresh-id counter and the list of
currently allocated (not yet revoked) object URLs, modelled as `Nat`
ids. -/
structure UrlEnv where
  next : Nat
  allocated : List Nat
deriving DecidableEq, Repr

/-- `URL.createObjectURL(file)`: returns a fresh id and records it as
allocated. -/
def createObjectURL (env : UrlEnv) : Nat × UrlEnv :=
  (env.next, ⟨env.next + 1, env.next :: env.allocated⟩)

/-- `URL.revokeObjectURL(u)`: removes `u` from the allocated set. -/
def revokeObjectURL (u : Nat) (env : UrlEnv) : UrlEnv :=
  ⟨env.next, env.allocated.erase u⟩

/-- What the preview `img` element is given as its source. -/
inductive PreviewSrc where
  | objUrl (id : Nat)
  | srcUrl (url : String)
  | empty
deriving DecidableEq, Repr

/-- `previewUrl()`: `state.image ? URL.createObjectURL(state.image) :
props.src || ''` — a selected file yields a freshly created object URL;
otherwise the `src` prop when it is a non-empty (truthy) string;
otherwise the empty source. -/
def previewUrl (s : SelState) (src : Option String) (env : UrlEnv) :
    PreviewSrc × UrlEnv :=
  match s.image with
  | some _ =>
    let r := createObjectURL env
    (PreviewSrc.objUrl r.1, r.2)
  | none =>
    match src with
    | some u => if u.isEmpty then (PreviewSrc.empty, env) else (PreviewSrc.srcUrl u, env)
    | none => (PreviewSrc.empty, env)

/-- `function reset()`: when a file is selected, create a fresh object
URL for it and immediately revoke that fresh URL (this is what the
source does — it does not revoke the URL previously handed to the
preview); then clear the three state fields and emit `reset`. -/
def resetFull (s : SelState) (env : UrlEnv) : SelState × UrlEnv × List Emit :=
  let env' :=
    match s.image with
    | some _ =>
      let r := createObjectURL env
      revokeObjectURL r.1 r.2
    | none => env
  (emptyState, env', [Emit.reset])

/-- The full mutable component state: the selection state, the visual
`isDragging` flag, and the object-URL store. -/
structure CompState where
  sel : SelState
  isDragging : Bool
  env : UrlEnv
deriving DecidableEq, Repr

/-- One user-triggered controller action: a selection attempt carrying an
input event (`handleChange` / `handleDrop`), a reset (`handleReset`), or
a drag-hover toggle (`handleDrag`). -/
inductive Action where
  | sel (e : InputEvent)
  | rst
  | drag (isOver : Bool)
deriving DecidableEq, Repr

/-- One controller step: `handleDrop` clears `isDragging` then selects,
`handleChange` selects, `handleReset` clears `isDragging` then resets,
`handleDrag` only toggles `isDragging`. -/
def stepC (p : Props) (c : CompState) : Action → CompState × List Emit
  | .sel e =>
    let r := select p c.sel e
    let d :=
      match e with
      | .drop _ => false
      | .picker _ => c.isDragging
    (⟨r.1, d, c.env⟩, r.2)
  | .rst =>
    let r := resetFull c.sel c.env
    (⟨r.1, false, r.2.1⟩, r.2.2)
  | .drag b => ({ c with isDragging := b }, [])

/-- The component state right after mount. -/
def initComp : CompState := ⟨emptyState, false, ⟨0, []⟩⟩

/-- Runs a sequence of actions from a given component state. -/
def runFrom (p : Props) (c : CompState) : List Action → CompState
  | [] => c
  | a :: rest => runFrom p (stepC p c a).1 rest

/-- Runs a sequence of actions from the mount state. -/
def run (p : Props) (acts : List Action) : CompState := runFrom p initComp acts

/-- Whether a validation outcome is an acceptance. -/
def isOk : Except String Unit → Bool
  | Except.ok _ => true
  | Except.error _ => false

/-- The outcome of a selection attempt: `none` when the event carries no
file (a no-op, not an attempt), otherwise whether validation accepted
the first file. -/
def attemptResult (p : Props) (e : InputEvent) : Option Bool :=
  match (filesOf e).head? with
  | none => none
  | some f => some (isOk (validate p (some f)))

/-- History fold: the outcome of the most recent selection attempt after
one more action. -/
def updLast (p : Props) (cur : Option Bool) : Action → Option Bool
  | .sel e =>
    match attemptResult p e with
    | some b => some b
    | none => cur
  | _ => cur

/-- The outcome of the most recent selection attempt in an action
sequence, folded from a given initial value. -/
def lastAttemptFrom (p : Props) (cur : Option Bool) : List Action → Option Bool
  | [] => cur
  | a :: rest => lastAttemptFrom p (updLast p cur a) rest

/-- The outcome of the most recent selection attempt in an action
sequence (`none` when there has been no attempt). -/
def lastAttempt (p : Props) (acts : List Action) : Option Bool :=
  lastAttemptFrom p none acts

/-- History fold: whether some selection attempt has succeeded, after one
more action. -/
def updSucc (p : Props) (cur : Bool) : Action → Bool
  | .sel e => cur || (attemptResult p e == some true)
  | _ => cur

/-- Whether some selection attempt in the sequence succeeded, folded from
a given initial value. -/
def hadSuccessFrom (p : Props) (cur : Bool) : List Action → Bool
  | [] => cur
  | a :: rest => hadSuccessFrom p (updSucc p cur a) rest

/-- Whether some selection attempt in the sequence succeeded. -/
def hadSuccess (p : Props) (acts : List Action) : Bool :=
  hadSuccessFrom p false acts

/-- The props used when the host supplies no configuration. -/
def defaultProps : Props := ⟨none, none⟩

lemma isImageFormatB_ne_empty {ext : String} (h : isImageFormatB ext = true) :
    ext.isEmpty = false := by
  simp [isImageFormatB, validImageFormats] at h
  rcases h with h | h | h | h | h <;> subst h <;> rfl

/-- C5: a candidate whose derived extension is outside the built-in set
{jpg, jpeg, png, webp, gif} is rejected with the unsupported-format
message citing the built-in set, regardless of the supplied
`supportedFormats` list or `maxSize`, before the policy and size rules
are consulted. -/
theorem C5_builtin_format_rejection (p : Props) (f : CFile)
    (h : isImageFormatB (fileExt f.name) = false) :
    validate p (some f) = Except.error (builtinFormatMsg (fileExt f.name)) := by
  simp [validate, h]

theorem C5_builtin_format_rejection_witness :
    validate ⟨some ["exe"], some 1⟩ (some ⟨"c.exe", 10240⟩)
      = Except.error (builtinFormatMsg (fileExt "c.exe")) :=
  C5_builtin_format_rejection ⟨some ["exe"], some 1⟩ ⟨"c.exe", 10240⟩ (by decide)

/-- C6: a candidate whose extension is in the built-in set but whose
lowercased extension is not in an explicitly supplied
`supportedFormats` list is rejected with the message citing the
supplied list; and when no list is supplied, the policy rule passes for
every built-in-format extension. -/
theorem C6_policy_rejection :
    (∀ (p : Props) (f : CFile) (exts : List String),
      p.supportedFormats = some exts →
      isImageFormatB (fileExt f.name) = true →
      exts.contains (fileExt f.name) = false →
      validate p (some f) = Except.error (allowedFormatMsg p (fileExt f.name))) ∧
    (∀ (m : Option Nat) (f : CFile),
      isImageFormatB (fileExt f.name) = true →
      isAllowedFormatB ⟨none, m⟩ (fileExt f.name) = true) := by
  constructor
  · intro p f exts hp h1 h2
    have hne := isImageFormatB_ne_empty h1
    have h2' : fileExt f.name ∉ exts := by simpa using h2
    have hallowed : isAllowedFormatB p (fileExt f.name) = false := by
      simp [isAllowedFormatB, effFormats, hp, hne, h2']
    simp [validate, h1, hallowed]
  · intro m f h1
    have hne := isImageFormatB_ne_empty h1
    simp [isAllowedFormatB, effFormats, hne, isImageFormatB] at h1 ⊢
    exact h1

theorem C6_policy_rejection_witness :
    validate ⟨some ["png"], none⟩ (some ⟨"a.jpg", 1024⟩)
      = Except.error (allowedFormatMsg ⟨some ["png"], none⟩ (fileExt "a.jpg")) ∧
    isAllowedFormatB ⟨none, none⟩ (fileExt "photo.png") = true :=
  ⟨C6_policy_rejection.1 ⟨some ["png"], none⟩ ⟨"a.jpg", 1024⟩ ["png"] rfl
      (by decide) (by decide),
    C6_policy_rejection.2 none ⟨"photo.png", 1⟩ (by decide)⟩

/-- C7: for a candidate that passes both format rules, validation
rejects exactly when the byte size strictly exceeds the effective
maximum (default 5 × 1024 × 1024 bytes), with the message rendering the
file size in MiB to two decimals and the maximum as the raw MiB value;
a file of exactly the maximum size is accepted, and a 6 MiB file under
default props is rejected citing 6.00MB and 5MB. -/
theorem C7_size_rule (p : Props) (f : CFile)
    (h1 : isImageFormatB (fileExt f.name) = true)
    (h2 : isAllowedFormatB p (fileExt f.name) = true) :
    (validate p (some f) = Except.error (sizeMsg f.size (effMaxSize p)) ↔
      effMaxSize p < f.size) ∧
    (f.size ≤ effMaxSize p → validate p (some f) = Except.ok ()) ∧
    effMaxSize defaultProps = 5 * 1024 * 1024 ∧
    validate defaultProps (some ⟨"b.gif", 6291456⟩) =
      Except.error "File size is too large: 6.00MB. Maximum allowed size is 5MB." := by
  have hv : validate p (some f) =
      if f.size > effMaxSize p then
        Except.error (sizeMsg f.size (effMaxSize p))
      else Except.ok () := by
    simp [validate, h1, h2]
  refine ⟨⟨fun heq => ?_, fun hlt => ?_⟩, fun hle => ?_, rfl, rfl⟩
  · by_contra hnlt
    rw [hv, if_neg (by omega)] at heq
    exact Except.noConfusion heq
  · rw [hv, if_pos (by omega)]
  · rw [hv, if_neg (by omega)]

theorem C7_size_rule_witness :
    validate defaultProps (some ⟨"b.gif", 6291456⟩) =
      Except.error (sizeMsg 6291456 (effMaxSize defaultProps)) :=
  (C7_size_rule defaultProps ⟨"b.gif", 6291456⟩ (by decide) (by decide)).1.mpr
    (by decide)

/-- C3 counterexample: the policy rule is not case-insensitive in the
supplied list — the extension png, which equals the list entry PNG up
to letter case, is rejected by the list containing only PNG. -/
theorem C3_case_sensitivity_cex :
    isAllowedFormatB ⟨some ["PNG"], none⟩ "png" = false ∧
    validate ⟨some ["PNG"], none⟩ (some ⟨"a.png", 1⟩) =
      Except.error "Unsupported file format: .png. Allowed formats are: PNG." :=
  ⟨rfl, rfl⟩

/-- C3 amended: the candidate's extension is lowercased before the
policy check, so the file name's letter case is irrelevant, but the
check against an explicitly supplied list is an exact (case-sensitive)
membership test of the lowercased extension: a.PNG is allowed by a
["png"] list but rejected by a ["PNG"] list. -/
theorem C3_amended_policy_membership :
    (∀ (p : Props) (exts : List String) (ext : String),
      p.supportedFormats = some exts → ext ≠ "" →
      isAllowedFormatB p ext = exts.contains ext) ∧
    validate ⟨some ["png"], none⟩ (some ⟨"a.PNG", 1⟩) = Except.ok () ∧
    validate ⟨some ["PNG"], none⟩ (some ⟨"a.PNG", 1⟩) =
      Except.error (allowedFormatMsg ⟨some ["PNG"], none⟩ "png") := by
  refine ⟨fun p exts ext hp hne => ?_, rfl, rfl⟩
  have : ext.isEmpty = false := by
    cases hE : ext.isEmpty
    · rfl
    · exact absurd ((String.isEmpty_iff ext).mp hE) hne
  simp [isAllowedFormatB, effFormats, hp, this]

theorem C3_amended_policy_membership_witness :
    isAllowedFormatB ⟨some ["PNG"], none⟩ "png" = List.contains ["PNG"] "png" :=
  C3_amended_policy_membership.1 ⟨some ["PNG"], none⟩ ["PNG"] "png" rfl (by decide)

lemma splitOnDot_of_not_mem : ∀ (l : List Char), ¬ ('.' ∈ l) → splitOnDot l = [l]
  | [], _ => rfl
  | c :: cs, h => by
    rw [List.mem_cons, not_or] at h
    obtain ⟨hc, hcs⟩ := h
    have hc' : ¬ (c = '.') := fun e => hc e.symm
    simp [splitOnDot, hc', splitOnDot_of_not_mem cs hcs]

/-- C10: a file name with no dot is treated as being all extension (the
last — here only — part of the dot-split, lowercased); hence a file
literally named png is accepted under default props while one named
document is rejected as an unsupported format. -/
theorem C10_no_dot_name :
    (∀ name : String, ¬ ('.' ∈ name.data) →
      fileExt name = String.mk (name.data.map Char.toLower)) ∧
    validate defaultProps (some ⟨"png", 1024⟩) = Except.ok () ∧
    validate defaultProps (some ⟨"document", 1024⟩) =
      Except.error (builtinFormatMsg "document") := by
  refine ⟨fun name h => ?_, rfl, rfl⟩
  unfold fileExt
  rw [splitOnDot_of_not_mem name.data h]
  rfl

theorem C10_no_dot_name_witness :
    fileExt "png" = String.mk ("png".data.map Char.toLower) :=
  C10_no_dot_name.1 "png" (by decide)

/-- C4: when the event carries a file and validation rejects it, the
controller leaves `image` and `touched` exactly as they were, sets
`error` to the rejection reason, and emits exactly one `error` event
carrying that reason (and no `select` event). -/
theorem C4_rejected_attempt (p : Props) (s : SelState) (e : InputEvent)
    (f : CFile) (msg : String)
    (h1 : (filesOf e).head? = some f)
    (h2 : validate p (some f) = Except.error msg) :
    select p s e = ({ s with error := some msg }, [Emit.error msg]) := by
  simp [select, h1, h2]

theorem C4_rejected_attempt_witness :
    select defaultProps ⟨some ⟨"photo.png", 2097152⟩, true, none⟩
        (InputEvent.picker [⟨"c.exe", 10240⟩]) =
      (⟨some ⟨"photo.png", 2097152⟩, true,
        some "Unsupported file format: .exe. Supported formats are: jpg, jpeg, png, webp, gif."⟩,
        [Emit.error "Unsupported file format: .exe. Supported formats are: jpg, jpeg, png, webp, gif."]) :=
  C4_rejected_attempt defaultProps ⟨some ⟨"photo.png", 2097152⟩, true, none⟩
    (InputEvent.picker [⟨"c.exe", 10240⟩]) ⟨"c.exe", 10240⟩ _ rfl rfl

/-- C8: an input event whose file list is empty is a complete no-op —
the selection state is returned unchanged and no event is emitted. -/
theorem C8_empty_event_noop (p : Props) (s : SelState) (e : InputEvent)
    (h : filesOf e = []) :
    select p s e = (s, []) := by
  simp [select, h]

theorem C8_empty_event_noop_witness :
    select defaultProps ⟨some ⟨"photo.png", 2097152⟩, true, none⟩
        (InputEvent.drop []) =
      (⟨some ⟨"photo.png", 2097152⟩, true, none⟩, []) :=
  C8_empty_event_noop defaultProps ⟨some ⟨"photo.png", 2097152⟩, true, none⟩
    (InputEvent.drop []) rfl

/-- C9: `reset` is total — from every selection state and URL store it
yields exactly the empty state and emits exactly one `reset` event, so
it is safe on an already-empty state and idempotent on state. -/
theorem C9_reset_idempotent (s : SelState) (env : UrlEnv) :
    (resetFull s env).1 = emptyState ∧
    (resetFull s env).2.2 = [Emit.reset] ∧
    (resetFull (resetFull s env).1 env).1 = emptyState :=
  ⟨rfl, rfl, rfl⟩

/-- C2: evaluation of the code at the failing scenario — select a valid
file, render its preview (object URL 0 is created and shown), then call
reset: reset mints a fresh object URL 1 and revokes that fresh URL, so
the rendered preview URL 0 is still allocated after the reset, even
though the state is cleared and one `reset` event is emitted. -/
theorem C2_reset_leaks_preview_url :
    (select defaultProps emptyState
        (InputEvent.picker [⟨"photo.png", 2097152⟩])).1 =
      ⟨some ⟨"photo.png", 2097152⟩, true, none⟩ ∧
    previewUrl ⟨some ⟨"photo.png", 2097152⟩, true, none⟩ none ⟨0, []⟩ =
      (PreviewSrc.objUrl 0, ⟨1, [0]⟩) ∧
    resetFull ⟨some ⟨"photo.png", 2097152⟩, true, none⟩ ⟨1, [0]⟩ =
      (emptyState, ⟨2, [0]⟩, [Emit.reset]) ∧
    0 ∈ (resetFull ⟨some ⟨"photo.png", 2097152⟩, true, none⟩ ⟨1, [0]⟩).2.1.allocated :=
  ⟨rfl, rfl, rfl, by decide⟩

/-- The history-indexed selection-state invariant: the error field is
set only when the most recent selection attempt failed, the touched
flag only after some successful attempt, and a selected file implies
the touched flag. -/
def InvS (s : SelState) (la : Option Bool) (hs : Bool) : Prop :=
  (s.error ≠ none → la = some false) ∧
  (s.touched = true → hs = true) ∧
  (s.image ≠ none → s.touched = true)

lemma invS_step (p : Props) (c : CompState) (a : Action) (la : Option Bool)
    (hs : Bool) (h : InvS c.sel la hs) :
    InvS (stepC p c a).1.sel (updLast p la a) (updSucc p hs a) := by
  cases a with
  | drag b => simpa [stepC, updLast, updSucc] using h
  | rst =>
    exact ⟨fun hn => absurd rfl hn,
      fun ht => Bool.noConfusion (show false = true from ht),
      fun hi => absurd rfl hi⟩
  | sel e =>
    cases hf : (filesOf e).head? with
    | none =>
      have hsel : select p c.sel e = (c.sel, []) := by simp [select, hf]
      have ha : attemptResult p e = none := by simp [attemptResult, hf]
      cases e <;> simpa [stepC, hsel, updLast, updSucc, ha] using h
    | some f =>
      cases hv : validate p (some f) with
      | ok u =>
        have hsel : (select p c.sel e).1 = ⟨some f, true, none⟩ := by
          simp [select, hf, hv]
        have ha : attemptResult p e = some true := by
          simp [attemptResult, hf, hv, isOk]
        refine ⟨fun hn => ?_, fun _ => ?_, fun _ => ?_⟩
        · exact absurd (by cases e <;> simp [stepC, hsel]) hn
        · simp [updSucc, ha]
        · cases e <;> simp [stepC, hsel]
      | error msg =>
        have hsel : (select p c.sel e).1 = { c.sel with error := some msg } := by
          simp [select, hf, hv]
        have ha : attemptResult p e = some false := by
          simp [attemptResult, hf, hv, isOk]
        refine ⟨fun _ => ?_, fun ht => ?_, fun hi => ?_⟩
        · simp [updLast, ha]
        · have : c.sel.touched = true := by
            cases e <;> simpa [stepC, hsel] using ht
          simp [updSucc, h.2.1 this]
        · have : c.sel.image ≠ none := by
            cases e <;> simpa [stepC, hsel] using hi
          cases e <;> simp [stepC, hsel, h.2.2 this]

lemma invS_runFrom (p : Props) :
    ∀ (acts : List Action) (c : CompState) (la : Option Bool) (hs : Bool),
      InvS c.sel la hs →
      InvS (runFrom p c acts).sel (lastAttemptFrom p la acts)
        (hadSuccessFrom p hs acts)
  | [], _, _, _, h => h
  | a :: rest, c, la, hs, h =>
    invS_runFrom p rest (stepC p c a).1 (updLast p la a) (updSucc p hs a)
      (invS_step p c a la hs h)

/-- C1 amended: after every action sequence from the mount state,
`error` is non-null only when the most recent selection attempt failed,
`touched` is true only after at least one successful selection, and
`image` is non-null only when `touched` is true — a rejected attempt
preserves a prior valid selection while setting `error`, so a non-null
`image` does not require a null `error`. -/
theorem C1_state_invariant (p : Props) (acts : List Action) :
    ((run p acts).sel.error ≠ none → lastAttempt p acts = some false) ∧
    ((run p acts).sel.touched = true → hadSuccess p acts = true) ∧
    ((run p acts).sel.image ≠ none → (run p acts).sel.touched = true) :=
  invS_runFrom p acts initComp none false
    ⟨fun hn => absurd rfl hn, fun ht => ht, fun hi => absurd rfl hi⟩

theorem C1_state_invariant_witness :
    lastAttempt defaultProps [Action.sel (InputEvent.drop [⟨"c.exe", 10240⟩])] =
      some false :=
  (C1_state_invariant defaultProps
    [Action.sel (InputEvent.drop [⟨"c.exe", 10240⟩])]).1 (by decide)

/-- C1 counterexample: after a successful selection followed by a
rejected attempt, the selected file is still present while the error
message is set, so a non-null `image` does not require a null
`error`. -/
theorem C1_state_invariant_cex :
    (run defaultProps
        [Action.sel (InputEvent.picker [⟨"photo.png", 2097152⟩]),
          Action.sel (InputEvent.picker [⟨"c.exe", 10240⟩])]).sel.image =
      some ⟨"photo.png", 2097152⟩ ∧
    (run defaultProps
        [Action.sel (InputEvent.picker [⟨"photo.png", 2097152⟩]),
          Action.sel (InputEvent.picker [⟨"c.exe", 10240⟩])]).sel.error =
      some "Unsupported file format: .exe. Supported formats are: jpg, jpeg, png, webp, gif." ∧
    (run defaultProps
        [Action.sel (InputEvent.picker [⟨"photo.png", 2097152⟩]),
          Action.sel (InputEvent.picker [⟨"c.exe", 10240⟩])]).sel.touched = true :=
  ⟨rfl, rfl, rfl⟩

end Vuepik
